import Mathlib

/-!
Verification development for the `trpc-svelte-query-adapter` package:
a shallow embedding of its query-key codec (`getQueryKeyInternal`), the
top-level proxy dispatcher (`svelteQueryWrapper`'s apply handler), the
cache-control utils proxy (`createUtilsProxy`), infinite-query input
merging, lazy-query activation and subscription teardown logic, together
with theorems about each.
-/

namespace TrpcSvelteQueryAdapter

/-- Model of a dynamically-typed JS value as it flows through the adapter.
`skip` models the `skipToken` sentinel imported from `@tanstack/svelte-query`
(a symbol, hence truthy and not an object).  Objects are ordered field
lists, mirroring JS property insertion order; arrays are element lists. -/
inductive JsValue where
  | undefined
  | null
  | bool (b : Bool)
  | num (n : Int)
  | str (s : String)
  | skip
  | arr (elems : List JsValue)
  | obj (fields : List (String × JsValue))

/-- JS truthiness for the modelled values (`undefined`, `null`, `false`,
`0` and `""` are falsy; symbols, objects and arrays are truthy). -/
def truthy : JsValue → Bool
  | .undefined => false
  | .null => false
  | .bool b => b
  | .num n => n != 0
  | .str s => s != ""
  | .skip => true
  | .arr _ => true
  | .obj _ => true

/-- `value === undefined || value === null` (the operand test of `??`). -/
def isNullish : JsValue → Bool
  | .undefined => true
  | .null => true
  | _ => false

/-- The source's `isObject`: `!!value && !Array.isArray(value) &&
typeof value === 'object'`; true exactly for plain objects (arrays and
`null` excluded, symbols such as `skipToken` excluded). -/
def isObject : JsValue → Bool
  | .obj _ => true
  | _ => false

/-- `typeof input !== 'undefined'` negated: the value is literally
`undefined`. -/
def isUndefined : JsValue → Bool
  | .undefined => true
  | _ => false

/-- `input === skipToken`. -/
def isSkipToken : JsValue → Bool
  | .skip => true
  | _ => false

/-- `key in value` for the uses in the source, which are guarded by
`isObject`: own-property membership on a plain object. -/
def jsHasProp (v : JsValue) (k : String) : Bool :=
  match v with
  | .obj f => f.any (fun p => p.1 == k)
  | _ => false

/-- `a ?? b`. -/
def jsNullishCoalesce (a b : JsValue) : JsValue :=
  if isNullish a then b else a

/-- `v?.k` followed by plain property read: `undefined` when the receiver
is nullish or not an object, else the first field named `k` (JS objects
have unique keys, so first = only). -/
def fieldGet : List (String × JsValue) → String → JsValue
  | [], _ => .undefined
  | (k', v) :: rest, k => if k' = k then v else fieldGet rest k

/-- Property read `v[k]` on the modelled values (the source only reads
properties of plain objects or nullish values here). -/
def getField : JsValue → String → JsValue
  | .obj f, k => fieldGet f k
  | _, _ => .undefined

/-- Optional chaining `v?.k`. -/
def optChain (v : JsValue) (k : String) : JsValue :=
  if isNullish v then .undefined else getField v k

/-- JS `[[Set]]` on a plain object: overwrite the (unique) existing field
in place, keeping its position, else append the new field — the semantics
of each copied property during object-spread. -/
def objSet : List (String × JsValue) → String → JsValue → List (String × JsValue)
  | [], k, v => [(k, v)]
  | (k', v') :: rest, k, v =>
    if k' = k then (k, v) :: rest else (k', v') :: objSet rest k v

/-- Copy the fields of `extra` onto `base` in order, as object-spread
(`{ ...base', ...extra }`) does. -/
def objSpread (base extra : List (String × JsValue)) : List (String × JsValue) :=
  extra.foldl (fun acc kv => objSet acc kv.1 kv.2) base

/-- The own enumerable properties contributed by spreading a value into an
object literal: an object contributes its fields; an array or string
contributes indexed properties; primitives, `null`/`undefined` and symbols
contribute nothing. -/
def spreadFields : JsValue → List (String × JsValue)
  | .obj f => f
  | .arr xs => xs.enum.map (fun p => (toString p.1, p.2))
  | .str s => s.data.enum.map (fun p => (toString p.1, .str (String.mk [p.2])))
  | _ => []

/-! ### Key Codec: `getQueryKeyInternal` -/

/-- The `QueryType` union `'query' | 'infinite' | 'any'` of the source. -/
inductive QueryType where
  | query
  | infinite
  | any
deriving DecidableEq, Repr

/-- The string the source stores in the key's `type` option. -/
def QueryType.toStr : QueryType → String
  | .query => "query"
  | .infinite => "infinite"
  | .any => "any"

/-- `part.split('.')` for the one-character separator `'.'`, structurally
recursive so that concrete instances reduce definitionally.  Matches JS
`String.prototype.split`: `"" ↦ [""]`, `"a.b" ↦ ["a","b"]`,
`"a." ↦ ["a",""]`. -/
def splitChars : List Char → List String
  | [] => [""]
  | c :: cs =>
    match splitChars cs with
    | [] => [""]
    | h :: t => if c = '.' then "" :: h :: t else String.mk (c :: h.data) :: t

/-- `path.flatMap((part) => part.split('.'))` — the atomic-segment sequence
of a procedure path. -/
def splitDottedPath : List String → List String
  | [] => []
  | p :: ps => splitChars p.data ++ splitDottedPath ps

/-- The destructuring `const { cursor: _, direction: __, ...rest } = input`:
drop the `cursor` and `direction` fields, preserving the order of the
remaining ones. -/
def inputWithoutCursorAndDirection : JsValue → JsValue
  | .obj f => .obj (f.filter (fun p => !(p.1 == "cursor") && !(p.1 == "direction")))
  | v => v

/-- `getQueryKeyInternal(path, input, type)` from the source, with the
call sites' `type` always one of the three `QueryType` strings (so the
source's `!type` disjunct is always false). -/
def getQueryKeyInternal (path : List String) (input : JsValue) (type : QueryType) :
    JsValue :=
  let sp := splitDottedPath path
  if !truthy input && (type == QueryType.any) then
    -- `return splitPath.length ? [splitPath] : []`
    if sp = [] then .arr [] else .arr [.arr (sp.map JsValue.str)]
  else if (type == QueryType.infinite) && isObject input &&
      (jsHasProp input "direction" || jsHasProp input "cursor") then
    .arr [.arr (sp.map JsValue.str),
          .obj [("input", inputWithoutCursorAndDirection input),
                ("type", .str "infinite")]]
  else
    .arr [.arr (sp.map JsValue.str),
          .obj ((if !isUndefined input && !isSkipToken input
                  then [("input", input)] else []) ++
                (if type != QueryType.any
                  then [("type", .str type.toStr)] else []))]

/-- `getMutationKeyInternal(path)`. -/
def getMutationKeyInternal (path : List String) : JsValue :=
  getQueryKeyInternal path .undefined .any

theorem splitChars_ne_nil (cs : List Char) : splitChars cs ≠ [] := by
  cases cs with
  | nil => simp [splitChars]
  | cons c cs =>
    simp only [splitChars]
    cases h : splitChars cs with
    | nil => simp
    | cons a l => by_cases hc : c = '.' <;> simp [hc]

theorem splitDottedPath_eq_nil_iff (path : List String) :
    splitDottedPath path = [] ↔ path = [] := by
  cases path with
  | nil => simp [splitDottedPath]
  | cons p ps =>
    simp [splitDottedPath, List.append_eq_nil, splitChars_ne_nil]

/-- Atomic-segment splitting on a concrete dotted segment behaves like JS
`split('.')`. -/
theorem splitDottedPath_example :
    splitDottedPath ["todos.get"] = ["todos", "get"] := rfl

/-- Number of elements of a modelled JS array (an observer used to
separate concrete keys). -/
def jsArrLen : JsValue → Nat
  | .arr xs => xs.length
  | _ => 0

theorem map_str_eq_iff (a b : List String) :
    a.map JsValue.str = b.map JsValue.str ↔ a = b :=
  (List.map_injective_iff.mpr (fun _ _ h => JsValue.str.inj h)).eq_iff

/-- C3: for every path, with absent (`undefined`) input and requested type
`'any'`, the derived key has no options element: it is `[]` when the path
has no segments (equivalently, is the empty list) and the one-element
`[splitPath]` otherwise. -/
theorem queryKey_absentInput_anyType (path : List String) :
    (path = [] → getQueryKeyInternal path .undefined .any = .arr []) ∧
    (path ≠ [] →
      getQueryKeyInternal path .undefined .any
        = .arr [.arr ((splitDottedPath path).map JsValue.str)]) := by
  constructor
  · intro h
    subst h
    rfl
  · intro h
    have hsp : ¬ splitDottedPath path = [] :=
      fun hc => h ((splitDottedPath_eq_nil_iff path).mp hc)
    simp [getQueryKeyInternal, truthy, hsp]

theorem queryKey_absentInput_anyType_witness :
    ((([] : List String) = []) ∧
      getQueryKeyInternal [] .undefined .any = .arr []) ∧
    ((["todos", "get"] : List String) ≠ [] ∧
      getQueryKeyInternal ["todos", "get"] .undefined .any
        = .arr [.arr [.str "todos", .str "get"]]) :=
  ⟨⟨rfl, (queryKey_absentInput_anyType []).1 rfl⟩,
   ⟨by simp, ((queryKey_absentInput_anyType ["todos", "get"]).2 (by simp)).trans rfl⟩⟩

/-- C4: for every path and structured-object input containing a `cursor`
or `direction` field, deriving with type `'infinite'` strips those two
fields (preserving the order of the rest) and records
`{input: stripped, type: 'infinite'}` as the options element. -/
theorem queryKey_infinite_strips_cursor_direction (path : List String)
    (f : List (String × JsValue))
    (h : jsHasProp (.obj f) "cursor" = true ∨ jsHasProp (.obj f) "direction" = true) :
    getQueryKeyInternal path (.obj f) .infinite
      = .arr [.arr ((splitDottedPath path).map JsValue.str),
              .obj [("input",
                      .obj (f.filter (fun p => !(p.1 == "cursor") && !(p.1 == "direction")))),
                    ("type", .str "infinite")]] := by
  have hp : (jsHasProp (.obj f) "direction" || jsHasProp (.obj f) "cursor") = true := by
    rcases h with h | h <;> simp [h]
  simp [getQueryKeyInternal, truthy, isObject, hp, inputWithoutCursorAndDirection]

/-- C4 witness: the spec's own example input
`{cursor: 5, direction: 'forward', filter: 'x'}`. -/
theorem queryKey_infinite_strips_cursor_direction_witness :
    (jsHasProp (.obj [("cursor", .num 5), ("direction", .str "forward"),
        ("filter", .str "x")]) "cursor" = true ∨
      jsHasProp (.obj [("cursor", .num 5), ("direction", .str "forward"),
        ("filter", .str "x")]) "direction" = true) ∧
    getQueryKeyInternal ["todos"]
        (.obj [("cursor", .num 5), ("direction", .str "forward"), ("filter", .str "x")])
        .infinite
      = .arr [.arr [.str "todos"],
              .obj [("input", .obj [("filter", .str "x")]),
                    ("type", .str "infinite")]] :=
  ⟨Or.inl rfl,
   (queryKey_infinite_strips_cursor_direction ["todos"]
      [("cursor", .num 5), ("direction", .str "forward"), ("filter", .str "x")]
      (Or.inl rfl)).trans rfl⟩

/-- C5 counterexample: with type `'any'`, the skip-token input does NOT
derive the same key as an absent input: `skipToken` is a truthy symbol, so
it misses the no-input/`any` branch and yields `[splitPath, {}]` (an empty
options element is kept), while `undefined` yields `[splitPath]`. -/
theorem queryKey_skipToken_any_cex :
    getQueryKeyInternal ["todos"] .skip .any
      ≠ getQueryKeyInternal ["todos"] .undefined .any :=
  fun h => absurd (congrArg jsArrLen h : (2 : Nat) = 1) (by decide)

/-- C5 amended: the skip-token input derives the same key as an absent
input for the types `'query'` and `'infinite'` (for `'any'`, the skip
token instead keeps an empty options element, see the counterexample). -/
theorem queryKey_skipToken_eq_noInput_nonAny (path : List String) (t : QueryType)
    (h : t ≠ QueryType.any) :
    getQueryKeyInternal path .skip t = getQueryKeyInternal path .undefined t := by
  cases t with
  | any => exact absurd rfl h
  | query => rfl
  | infinite => rfl

theorem queryKey_skipToken_eq_noInput_nonAny_witness :
    (QueryType.query ≠ QueryType.any) ∧
    getQueryKeyInternal ["todos"] .skip .query
      = getQueryKeyInternal ["todos"] .undefined .query :=
  ⟨by decide, queryKey_skipToken_eq_noInput_nonAny ["todos"] .query (by decide)⟩

/-- C6: for a fixed input and type, two paths derive equal keys iff their
atomic-segment sequences (each segment split on `'.'`, concatenated) are
equal. -/
theorem queryKey_eq_iff_atomic_segments_eq (p1 p2 : List String) (i : JsValue)
    (t : QueryType) :
    getQueryKeyInternal p1 i t = getQueryKeyInternal p2 i t
      ↔ splitDottedPath p1 = splitDottedPath p2 := by
  unfold getQueryKeyInternal
  by_cases h1 : (!truthy i && (t == QueryType.any)) = true
  · simp only [h1, if_true]
    by_cases e1 : splitDottedPath p1 = [] <;> by_cases e2 : splitDottedPath p2 = [] <;>
      simp [e1, e2, map_str_eq_iff, eq_comm]
  · by_cases h2 : ((t == QueryType.infinite) && isObject i &&
        (jsHasProp i "direction" || jsHasProp i "cursor")) = true <;>
      simp [h1, h2, map_str_eq_iff]

/-- The spec's example instance of C6: `['todos.get']` and
`['todos','get']` derive identical keys. -/
theorem queryKey_dotted_segment_example :
    getQueryKeyInternal ["todos.get"] (.obj [("filter", .str "x")]) .query
      = getQueryKeyInternal ["todos", "get"] (.obj [("filter", .str "x")]) .query := rfl

/-! ### Path Resolver: `svelteQueryWrapper`'s apply handler -/

/-- The keys of the `procedures` registry (the values of the `Procedure`
constant). -/
def procedureKeys : List String :=
  ["createQuery", "createServerQuery", "createInfiniteQuery",
   "createServerInfiniteQuery", "createMutation", "createSubscription",
   "getQueryKey", "createContext", "createUtils", "createQueries",
   "createServerQueries"]

/-- The registered meta-operations whose factory body starts with
`if (ctx.path.length !== 0) return;` — i.e. it returns `undefined`
(no callable) unless invoked at the tree root. -/
def rootOnlyProcedureKeys : List String :=
  ["createQueries", "createServerQueries", "createUtils", "createContext"]

/-- The keys of the `procedureExts` registry; each entry holds exactly the
single extension member `opts`. -/
def procedureExtKeys : List String :=
  ["createQuery", "createInfiniteQuery", "createMutation", "createSubscription"]

/-- Outcome of one invocation on the dispatcher proxy.
`forwardedToClient` is produced by no branch of the code's apply handler;
it exists only so the spec's claimed forwarding behaviour can be stated
and compared (see `specUnmatchedDispatch`). -/
inductive DispatchResult where
  | defPath (path : List String)
  | procedureCall (key : String) (path : List String)
  | procedureExtCall (proc : String) (ext : String)
  | unhandledLogged
  | thrownTypeError
  | forwardedToClient (path : List String)
deriving DecidableEq, Repr

/-- The apply handler of `svelteQueryWrapper`'s `DeepProxy`: `path` is the
accumulated path with the invoked member `key` already popped off.
Branches, in source order:
* `key === '_def'` returns `{ path }`;
* a registered meta-operation's factory is invoked with the context and the
  produced callable is applied — except that root-only factories return
  `undefined` off the root, and applying the call arguments to `undefined`
  throws a `TypeError`;
* `proc := path.pop() ?? ''`: a `procedureExts` extension (`opts`);
* otherwise `console.error(...)` and an implicit `undefined` return. -/
def svelteQueryWrapperApply (path : List String) (key : String) : DispatchResult :=
  if key = "_def" then .defPath path
  else if key ∈ procedureKeys then
    if key ∈ rootOnlyProcedureKeys ∧ path ≠ [] then .thrownTypeError
    else .procedureCall key path
  else if path.getLastD "" ∈ procedureExtKeys ∧ key = "opts" then
    .procedureExtCall (path.getLastD "") key
  else .unhandledLogged

/-- Modelled from the spec: "If unmatched, the segment is restored
conceptually as part of the live remote-procedure path and the call is
forwarded to the underlying client at that full path."  Stated for
comparison with the code's `svelteQueryWrapperApply`. -/
def specUnmatchedDispatch (path : List String) (key : String) : DispatchResult :=
  .forwardedToClient (path ++ [key])

/-- C1 counterexample: invoking `client.todos.get.query(input)` on the
dispatcher does not reach the underlying client; the apply handler has no
forwarding branch, so the call is logged as an unhandled proxy path and
resolves to `undefined`. -/
theorem unmatchedDispatch_not_forwarded_cex :
    svelteQueryWrapperApply ["todos", "get"] "query" = .unhandledLogged ∧
    svelteQueryWrapperApply ["todos", "get"] "query"
      ≠ specUnmatchedDispatch ["todos", "get"] "query" := by
  constructor <;> decide

/-- C1 amended: for every invocation whose final segment is not `_def`,
not a registered meta-operation, and not an `opts` extension of one, the
dispatcher logs an unhandled-path error and returns `undefined` — it never
forwards the call to the underlying remote-procedure client. -/
theorem unmatchedDispatch_logs_and_returns_undefined (path : List String)
    (key : String) (h1 : key ≠ "_def") (h2 : key ∉ procedureKeys)
    (h3 : ¬(path.getLastD "" ∈ procedureExtKeys ∧ key = "opts")) :
    svelteQueryWrapperApply path key = .unhandledLogged := by
  simp only [List.getLastD_eq_getLast?] at h3
  simp [svelteQueryWrapperApply, h1, h2, h3]

theorem unmatchedDispatch_logs_and_returns_undefined_witness :
    (("query" : String) ≠ "_def" ∧ ("query" : String) ∉ procedureKeys ∧
      ¬((["todos", "get"] : List String).getLastD "" ∈ procedureExtKeys ∧
        ("query" : String) = "opts")) ∧
    svelteQueryWrapperApply ["todos", "get"] "query" = .unhandledLogged :=
  ⟨by decide,
   unmatchedDispatch_logs_and_returns_undefined ["todos", "get"] "query"
     (by decide) (by decide) (by decide)⟩

/-- C2 counterexample: `createQueries` invoked at the non-root path
`['todos']` makes the dispatcher throw a `TypeError` — the registered
factory returns `undefined` off the root and the apply handler then
invokes that `undefined` with the call arguments — instead of logging and
returning `undefined`. -/
theorem rootOnlyProcedure_offRoot_throws_cex :
    svelteQueryWrapperApply ["todos"] "createQueries" = .thrownTypeError ∧
    DispatchResult.thrownTypeError ≠ DispatchResult.unhandledLogged := by
  constructor <;> decide

/-- C2 amended: every root-only meta-operation (`createQueries`,
`createServerQueries`, `createUtils`, `createContext`) invoked at a
non-root path throws a `TypeError`; only names matching no registered
meta-operation and no `opts` extension are logged and resolved to
`undefined`. -/
theorem rootOnlyProcedure_offRoot_throws (path : List String) (key : String)
    (h1 : key ∈ rootOnlyProcedureKeys) (h2 : path ≠ []) :
    svelteQueryWrapperApply path key = .thrownTypeError := by
  simp only [rootOnlyProcedureKeys, List.mem_cons, List.not_mem_nil, or_false] at h1
  rcases h1 with h | h | h | h <;> subst h <;>
    simp [svelteQueryWrapperApply, procedureKeys, rootOnlyProcedureKeys, h2]

theorem rootOnlyProcedure_offRoot_throws_witness :
    (("createQueries" : String) ∈ rootOnlyProcedureKeys ∧
      (["todos"] : List String) ≠ []) ∧
    svelteQueryWrapperApply ["todos"] "createQueries" = .thrownTypeError :=
  ⟨by decide,
   rootOnlyProcedure_offRoot_throws ["todos"] "createQueries" (by decide) (by decide)⟩

/-! ### Cache-Control ("utils") Tree: `createUtilsProxy` -/

/-- The keys of the `utilProcedures` registry, in source order (the
query-shaped utilities followed by the mutation-shaped ones). -/
def utilProcedureKeys : List String :=
  ["fetch", "fetchInfinite", "prefetch", "prefetchInfinite", "ensureData",
   "invalidate", "reset", "refetch", "cancel", "setData", "setInfiniteData",
   "getData", "getInfiniteData", "setMutationDefaults", "getMutationDefaults",
   "isMutating"]

/-- Outcome of one property access on the utils proxy. -/
inductive UtilsAccessResult where
  | client
  | utilProc (key : String) (path : List String)
  | nested (path : List String)
deriving DecidableEq, Repr

/-- The get handler of `createUtilsProxy`'s `DeepProxy` at accumulated
path `path` accessing member `key`: the `client` check comes first, then
the `utilProcedures` registry, then nesting. -/
def createUtilsProxyGet (path : List String) (key : String) : UtilsAccessResult :=
  if key = "client" then .client
  else if key ∈ utilProcedureKeys then .utilProc key path
  else .nested (path ++ [key])

/-- Resolve a chain of property accesses starting from the utils proxy at
`path`: intermediate accesses must produce nested proxies; the final
access produces the result.  Accesses on a terminal value fall outside the
proxy and resolve to `none`. -/
def resolveUtilsAccess (path : List String) : List String → Option UtilsAccessResult
  | [] => none
  | [k] => some (createUtilsProxyGet path k)
  | k :: k' :: rest =>
    match createUtilsProxyGet path k with
    | .nested p => resolveUtilsAccess p (k' :: rest)
    | _ => none

/-- C10: accessing `client` on the utils tree yields the underlying
remote-procedure client handle at every path depth, because the `client`
key is intercepted before the registry lookup and before nesting: any
chain of intermediate segments that nest (are neither `client` nor a
utility name) followed by `client` resolves to the client. -/
theorem utilsProxy_client_at_any_depth (path : List String) (segs : List String)
    (h : ∀ s ∈ segs, s ≠ "client" ∧ s ∉ utilProcedureKeys) :
    resolveUtilsAccess path (segs ++ ["client"]) = some .client := by
  induction segs generalizing path with
  | nil => simp [resolveUtilsAccess, createUtilsProxyGet]
  | cons s ss ih =>
    have hs := h s (List.mem_cons_self s ss)
    have hrest : ∀ x ∈ ss, x ≠ "client" ∧ x ∉ utilProcedureKeys :=
      fun x hx => h x (List.mem_cons_of_mem s hx)
    cases ss with
    | nil =>
      simp [resolveUtilsAccess, createUtilsProxyGet, hs.1, hs.2]
    | cons s' ss' =>
      have := ih (path ++ [s]) hrest
      simpa [resolveUtilsAccess, createUtilsProxyGet, hs.1, hs.2] using this

theorem utilsProxy_client_at_any_depth_witness :
    (∀ s ∈ (["todos", "get"] : List String), s ≠ "client" ∧ s ∉ utilProcedureKeys) ∧
    resolveUtilsAccess [] ["todos", "get", "client"] = some .client :=
  ⟨by decide, utilsProxy_client_at_any_depth [] ["todos", "get"] (by decide)⟩

/-! ### Infinite-Query Binder: per-page input merging and initial cursor -/

/-- The input the infinite-query fetch closure forwards for one page
request (line `const actualInput = { ...(procedureInput ?? {}),
...(pageParam ? { cursor: pageParam } : {}), direction }` of the
`createInfiniteQuery` binder; the `fetchInfinite`/`prefetchInfinite`
utilities and the server variant build the same object). -/
def infiniteQueryActualInput (procedureInput pageParam direction : JsValue) : JsValue :=
  .obj (objSpread
          (objSpread
            (objSpread [] (spreadFields (jsNullishCoalesce procedureInput (.obj []))))
            (if truthy pageParam then [("cursor", pageParam)] else []))
          [("direction", direction)])

/-- `initialPageParam: currentOpts?.initialCursor ?? null`. -/
def infiniteQueryInitialPageParam (currentOpts : JsValue) : JsValue :=
  jsNullishCoalesce (optChain currentOpts "initialCursor") .null

theorem fieldGet_objSet_self (f : List (String × JsValue)) (k : String) (v : JsValue) :
    fieldGet (objSet f k v) k = v := by
  induction f with
  | nil => simp [objSet, fieldGet]
  | cons p rest ih =>
    by_cases h : p.1 = k <;> simp [objSet, fieldGet, h, ih]

theorem fieldGet_objSet_other (f : List (String × JsValue)) (k k' : String)
    (v : JsValue) (h : k ≠ k') :
    fieldGet (objSet f k v) k' = fieldGet f k' := by
  induction f with
  | nil => simp [objSet, fieldGet, h]
  | cons p rest ih =>
    by_cases hp : p.1 = k
    · simp [objSet, fieldGet, hp, h]
    · simp only [objSet, hp, if_neg]
      by_cases hp' : p.1 = k' <;> simp [fieldGet, hp', ih]

/-- C7 counterexample: on the initial page request (`pageParam` is the
default `null`), the fetch closure does NOT merge a `cursor` field into
the forwarded input — the source includes `cursor` only behind
`pageParam ? ... : ...` — so the forwarded input has no `cursor`
property (reads as `undefined`, not the page parameter `null`). -/
theorem infiniteInput_initialPage_noCursor_cex :
    getField (infiniteQueryActualInput (.obj [("filter", .str "x")]) .null
        (.str "forward")) "cursor" = .undefined ∧
    infiniteQueryActualInput (.obj [("filter", .str "x")]) .null (.str "forward")
      = .obj [("filter", .str "x"), ("direction", .str "forward")] ∧
    (JsValue.undefined ≠ JsValue.null) :=
  ⟨rfl, rfl, fun h => JsValue.noConfusion h⟩

/-- C7 amended: the fetch closure always merges `direction` (from the page
request) into the forwarded input; it merges `cursor` (from the page
parameter) only when the page parameter is truthy — in particular not for
the default initial `null` page.  The initial page parameter is the
explicit `initialCursor` option when that is present and non-nullish, and
`null` when the options object carries no such option (or is absent). -/
theorem infiniteInput_merge_direction_cursor (procedureInput pageParam direction :
    JsValue) :
    (getField (infiniteQueryActualInput procedureInput pageParam direction)
        "direction" = direction) ∧
    (truthy pageParam = true →
      getField (infiniteQueryActualInput procedureInput pageParam direction)
        "cursor" = pageParam) ∧
    (truthy pageParam = false →
      getField (infiniteQueryActualInput procedureInput pageParam direction)
        "cursor"
        = fieldGet (objSpread []
            (spreadFields (jsNullishCoalesce procedureInput (.obj [])))) "cursor") ∧
    (infiniteQueryInitialPageParam .undefined = .null) ∧
    (∀ optsF : List (String × JsValue),
      isNullish (fieldGet optsF "initialCursor") = false →
        infiniteQueryInitialPageParam (.obj optsF) = fieldGet optsF "initialCursor") ∧
    (∀ optsF : List (String × JsValue),
      isNullish (fieldGet optsF "initialCursor") = true →
        infiniteQueryInitialPageParam (.obj optsF) = .null) := by
  refine ⟨?_, ?_, ?_, rfl, ?_, ?_⟩
  · show fieldGet (objSet _ "direction" direction) "direction" = direction
    exact fieldGet_objSet_self _ _ _
  · intro h
    show fieldGet (objSet (objSpread _ (if truthy pageParam then _ else _))
        "direction" direction) "cursor" = pageParam
    rw [fieldGet_objSet_other _ _ _ _ (by decide), h]
    exact fieldGet_objSet_self _ _ _
  · intro h
    show fieldGet (objSet (objSpread _ (if truthy pageParam then _ else _))
        "direction" direction) "cursor" = _
    rw [fieldGet_objSet_other _ _ _ _ (by decide), h]
    rfl
  · intro optsF h
    show jsNullishCoalesce (optChain (JsValue.obj optsF) "initialCursor")
        JsValue.null = _
    have ho : optChain (JsValue.obj optsF) "initialCursor"
        = fieldGet optsF "initialCursor" := rfl
    rw [ho, jsNullishCoalesce, if_neg (by simp [h])]
  · intro optsF h
    show jsNullishCoalesce (optChain (JsValue.obj optsF) "initialCursor")
        JsValue.null = _
    have ho : optChain (JsValue.obj optsF) "initialCursor"
        = fieldGet optsF "initialCursor" := rfl
    rw [ho, jsNullishCoalesce, if_pos h]

/-- C7 witness: a later page request with a truthy cursor, and concrete
option objects with and without `initialCursor`. -/
theorem infiniteInput_merge_direction_cursor_witness :
    (truthy (.num 7) = true ∧
      isNullish (fieldGet [("initialCursor", JsValue.num 3)] "initialCursor") = false ∧
      isNullish (fieldGet [("lazy", JsValue.bool true)] "initialCursor") = true) ∧
    (getField (infiniteQueryActualInput (.obj [("filter", .str "x")]) (.num 7)
        (.str "forward")) "direction" = .str "forward" ∧
      getField (infiniteQueryActualInput (.obj [("filter", .str "x")]) (.num 7)
        (.str "forward")) "cursor" = .num 7 ∧
      infiniteQueryInitialPageParam (.obj [("initialCursor", JsValue.num 3)]) = .num 3 ∧
      infiniteQueryInitialPageParam (.obj [("lazy", JsValue.bool true)]) = .null) :=
  ⟨⟨rfl, rfl, rfl⟩,
   ⟨(infiniteInput_merge_direction_cursor (.obj [("filter", .str "x")]) (.num 7)
        (.str "forward")).1,
    ((infiniteInput_merge_direction_cursor (.obj [("filter", .str "x")]) (.num 7)
        (.str "forward")).2.1 rfl),
    ((infiniteInput_merge_direction_cursor (.obj [("filter", .str "x")]) (.num 7)
        (.str "forward")).2.2.2.2.1 [("initialCursor", JsValue.num 3)] rfl),
    ((infiniteInput_merge_direction_cursor (.obj [("filter", .str "x")]) (.num 7)
        (.str "forward")).2.2.2.2.2 [("lazy", JsValue.bool true)] rfl)⟩⟩

/-! ### Lazy activation (Procedure.query with `opts.lazy`) -/

/-- The base key the query binder computes before building the reactive
descriptor: `getQueryKeyInternal(path, isInputStore ? {} : procedureInput,
'query')` — with an empty-object placeholder when the input is a reactive
store. -/
def queryProcBaseKey (path : List String) (isInputStore : Bool)
    (procedureInput : JsValue) : JsValue :=
  getQueryKeyInternal path (if isInputStore then .obj [] else procedureInput) .query

/-- One observable step of the lazy resolver's body. -/
inductive LazyEvent where
  | awaitData
  | setQueryData (key : JsValue) (data : JsValue)
  | setEnabled (b : Bool)

/-- The sequence of steps performed by the activation function the lazy
branch returns: `async (data?) => { if (data) {
queryClient.setQueryData(baseQueryKey, await data); }
(enabled as Writable<boolean>).set(true); }`.  `data = some d` models a
supplied promise resolving to `d`; `awaitData` marks the suspension point
at which that promise resolves. -/
def lazyResolverEvents (baseQueryKey : JsValue) (data : Option JsValue) :
    List LazyEvent :=
  match data with
  | some d => [.awaitData, .setQueryData baseQueryKey d, .setEnabled true]
  | none => [.setEnabled true]

/-- C8: in the lazy resolver invoked with a pending promise, any prefix of
the event sequence in which the enabled flag has been set to `true`
already contains the promise resolution and the cache seeding — i.e. the
query is not enabled until after the value resolves, and the cache is
seeded first, at the base key derived from the pre-activation input (an
empty-object placeholder when the input is a reactive store). -/
theorem lazyResolver_seeds_before_enable (path : List String) (isInputStore : Bool)
    (procedureInput d : JsValue) (i : Nat)
    (h : LazyEvent.setEnabled true ∈
      (lazyResolverEvents (queryProcBaseKey path isInputStore procedureInput)
        (some d)).take i) :
    LazyEvent.awaitData ∈
      (lazyResolverEvents (queryProcBaseKey path isInputStore procedureInput)
        (some d)).take i ∧
    LazyEvent.setQueryData
        (getQueryKeyInternal path (if isInputStore then .obj [] else procedureInput)
          .query) d ∈
      (lazyResolverEvents (queryProcBaseKey path isInputStore procedureInput)
        (some d)).take i := by
  match i with
  | 0 =>
    exact absurd (h : LazyEvent.setEnabled true ∈ ([] : List LazyEvent)) (by simp)
  | 1 =>
    have h' : LazyEvent.setEnabled true ∈ [LazyEvent.awaitData] := h
    simp at h'
  | 2 =>
    have h' : LazyEvent.setEnabled true ∈
        [LazyEvent.awaitData,
         LazyEvent.setQueryData (queryProcBaseKey path isInputStore procedureInput) d] :=
      h
    simp at h'
  | n + 3 =>
    exact ⟨List.Mem.head _, List.Mem.tail _ (List.Mem.head _)⟩

theorem lazyResolver_seeds_before_enable_witness :
    (LazyEvent.setEnabled true ∈
      (lazyResolverEvents (queryProcBaseKey ["todos", "get"] true .null)
        (some (.num 1))).take 3) ∧
    LazyEvent.setQueryData (getQueryKeyInternal ["todos", "get"] (.obj []) .query)
        (.num 1) ∈
      (lazyResolverEvents (queryProcBaseKey ["todos", "get"] true .null)
        (some (.num 1))).take 3 :=
  ⟨List.Mem.tail _ (List.Mem.tail _ (List.Mem.head _)),
   (lazyResolver_seeds_before_enable ["todos", "get"] true .null (.num 1) 3
      (List.Mem.tail _ (List.Mem.tail _ (List.Mem.head _)))).2⟩

/-! ### Subscription Binder: teardown and the `isStopped` flag -/

/-- An event the underlying transport can deliver to a subscription. -/
inductive SubEvent where
  | started
  | data (d : JsValue)
  | error (e : JsValue)

/-- What can happen to one established subscription: the transport
delivers an event, or the effect's cleanup (teardown on re-run or destroy)
runs. -/
inductive SubAction where
  | deliver (e : SubEvent)
  | teardown

/-- Per-subscription state: the closure's local `isStopped` flag and the
events that have been forwarded to the caller-supplied handlers
(`onStarted` / `onData` / `onError`). -/
structure SubState where
  isStopped : Bool
  forwarded : List SubEvent

/-- One step: each wrapped handler forwards its event only under
`if (!isStopped)`; the cleanup sets `isStopped = true` (and unsubscribes,
which has no bearing on the flag). -/
def subscriptionStep (s : SubState) : SubAction → SubState
  | .deliver e => if s.isStopped then s else { s with forwarded := s.forwarded ++ [e] }
  | .teardown => { s with isStopped := true }

/-- Running a subscription from its establishment (`isStopped = false`,
nothing forwarded) through a sequence of actions. -/
def subscriptionRun (actions : List SubAction) : SubState :=
  actions.foldl subscriptionStep ⟨false, []⟩

theorem subscriptionStep_stopped (post : List SubAction) (s : SubState)
    (hs : s.isStopped = true) : post.foldl subscriptionStep s = s := by
  induction post generalizing s with
  | nil => rfl
  | cons a post ih =>
    cases a with
    | deliver e => simp only [List.foldl_cons, subscriptionStep, hs, if_true]; exact ih s hs
    | teardown =>
      have : subscriptionStep s .teardown = s := by
        cases s
        simp_all [subscriptionStep]
      rw [List.foldl_cons, this]
      exact ih s hs

/-- C9: once the subscription's teardown cleanup has run, no
transport-delivered event — however many and of whatever kind, including
the start confirmation — is ever forwarded to the caller's handlers: the
forwarded sequence after teardown plus any late deliveries equals the
forwarded sequence at teardown. -/
theorem subscription_silent_after_teardown (pre post : List SubAction) :
    (subscriptionRun (pre ++ SubAction.teardown :: post)).forwarded
      = (subscriptionRun (pre ++ [SubAction.teardown])).forwarded := by
  unfold subscriptionRun
  rw [show pre ++ SubAction.teardown :: post = (pre ++ [SubAction.teardown]) ++ post by
        simp]
  rw [List.foldl_append]
  rw [subscriptionStep_stopped post _ ?_]
  rw [List.foldl_append]
  simp [subscriptionStep]

end TrpcSvelteQueryAdapter
